import Mathlib

/-!
Shallow embedding of `src/main.rs` of the `scryfall_proxy` repository.

The Rust program reads a deck list from stdin, one card request per line,
looks each card up over HTTP, normalizes the JSON response into printable
faces, replicates faces by the requested count, groups the flat face
sequence into pages of nine and renders an HTML document.

Modelling conventions:
  * Rust `u8` parsing is modelled by `parseU8` on `Nat` with an explicit
    `≤ 255` bound (Rust `str::parse::<u8>` accepts an optional leading
    plus sign, then decimal digits, and rejects out-of-range values).
  * Rust `str::split(" ")` is modelled by `splitOnChar`, which keeps empty
    tokens and yields one empty token for the empty string, exactly like
    the Rust iterator.
  * The HTTP collaborator (`reqwest::blocking::get` followed by
    `Response::text`) is a parameter `http : String → HttpResult`.  A
    readable response body is represented by its JSON parse result
    (`Option Json`, `none` when the text is not valid JSON); the serde
    text-level parser itself is not re-implemented, only the typed
    decoding of the two derived `Deserialize` shapes.
  * serde's derived decoders require the named field to be present with
    the right structure and ignore unknown fields; field lookup takes the
    first occurrence of the key.
-/

set_option autoImplicit false
set_option maxRecDepth 100000

/-- The error enumeration of `scryfall::RuntimeError` (main.rs lines 39-46). -/
inductive RuntimeError where
  | InvalidCardCountNumberError
  | MalformedLineError
  | ParseJsonError
  | ParseStdinError
  | WebRequestBodyParseError
  | WebRequestError
  deriving DecidableEq

/-- `ImageUriGroup` (main.rs lines 54-57): the `image_uris` object, field `large`. -/
structure ImageUriGroup where
  large : String
  deriving DecidableEq

/-- `CardFace` (main.rs lines 59-62): a single printable face. -/
structure CardFace where
  image_uris : ImageUriGroup
  deriving DecidableEq

/-- `MultiCardFace` (main.rs lines 64-67): a multi-faced card response. -/
structure MultiCardFace where
  card_faces : List CardFace
  deriving DecidableEq

/-- `LineCard` (main.rs lines 48-52).  Field names follow the source:
`count` is the first token of the line, `code` receives the second token
and `set` the third (see `LineCard.parse_from`). -/
structure LineCard where
  count : Nat
  code : String
  set : String
  deriving DecidableEq

/-- JSON values, used to model the decoded bodies handed to `serde_json`. -/
inductive Json where
  | str (s : String)
  | num (n : Int)
  | bool (b : Bool)
  | null
  | arr (elems : List Json)
  | obj (fields : List (String × Json))

instance {ε α : Type} [DecidableEq ε] [DecidableEq α] : DecidableEq (Except ε α) := fun
  | .error a, .error b =>
    if h : a = b then .isTrue (by rw [h])
    else .isFalse (fun hh => h (by cases hh; rfl))
  | .error _, .ok _ => .isFalse (fun hh => Except.noConfusion hh)
  | .ok _, .error _ => .isFalse (fun hh => Except.noConfusion hh)
  | .ok a, .ok b =>
    if h : a = b then .isTrue (by rw [h])
    else .isFalse (fun hh => h (by cases hh; rfl))

/-- First-occurrence lookup of a key in a JSON object's field list. -/
def lookupField : List (String × Json) → String → Option Json
  | [], _ => none
  | (k, v) :: rest, key => if k = key then some v else lookupField rest key

/-- Field access on a JSON value: `none` unless the value is an object
containing the key. -/
def Json.getField : Json → String → Option Json
  | .obj fields, key => lookupField fields key
  | _, _ => none

/-- serde decoding of `ImageUriGroup`: an object whose `large` field is a
JSON string; other fields are ignored. -/
def decodeImageUriGroup (j : Json) : Option ImageUriGroup :=
  match j.getField "large" with
  | some (.str s) => some ⟨s⟩
  | _ => none

/-- serde decoding of `CardFace`: an object whose `image_uris` field
decodes as an `ImageUriGroup`. -/
def decodeCardFace (j : Json) : Option CardFace :=
  match j.getField "image_uris" with
  | some g => (decodeImageUriGroup g).map (fun ig => ⟨ig⟩)
  | none => none

/-- serde decoding of `MultiCardFace`: an object whose `card_faces` field
is an array each element of which decodes as a `CardFace`. -/
def decodeMultiCardFace (j : Json) : Option MultiCardFace :=
  match j.getField "card_faces" with
  | some (.arr elems) => (elems.mapM decodeCardFace).map (fun fs => ⟨fs⟩)
  | _ => none

/-- Rust `str::split(" ")` on a character list: splits at every space,
keeping empty tokens; the empty string yields one empty token. -/
def splitOnChar (sep : Char) : List Char → List (List Char)
  | [] => [[]]
  | c :: cs =>
    match splitOnChar sep cs with
    | [] => [[]]
    | g :: gs => if c = sep then [] :: g :: gs else (c :: g) :: gs

/-- Rust `str::parse::<u8>`: optional leading plus sign, then one or more
decimal digits, value at most 255; anything else is an error (`none`). -/
def parseU8 (l : List Char) : Option Nat :=
  let digits := match l with
    | '+' :: rest => rest
    | _ => l
  if digits = [] then none
  else if digits.all (fun c => decide ('0' ≤ c) && decide (c ≤ '9')) then
    let v := digits.foldl (fun a c => a * 10 + (c.toNat - '0'.toNat)) 0
    if v ≤ 255 then some v else none
  else none

/-- The last two `next()` calls of `LineCard::parse_from` (main.rs lines
102-116): the next token becomes the `code` field and the one after it
the `set` field; a missing token is `MalformedLineError`.  Tokens beyond
the third are never requested from the iterator. -/
def parse_rest (n : Nat) : List (List Char) → Except RuntimeError LineCard
  | [] => .error RuntimeError.MalformedLineError
  | t2 :: rest2 =>
    match rest2 with
    | [] => .error RuntimeError.MalformedLineError
    | t3 :: _ => .ok { count := n, code := ⟨t2⟩, set := ⟨t3⟩ }

/-- The token-level body of `LineCard::parse_from` (main.rs lines 88-117):
the first token must parse as a `u8` count, then two more tokens are
taken.  The `[]` arm mirrors the source's `None` branch on the first
`next()` call (unreachable, since splitting always yields a token). -/
def parse_from_tokens : List (List Char) → Except RuntimeError LineCard
  | [] => .error RuntimeError.MalformedLineError
  | t1 :: rest =>
    match parseU8 t1 with
    | none => .error RuntimeError.InvalidCardCountNumberError
    | some n => parse_rest n rest

/-- `LineCard::parse_from` (main.rs lines 88-117): split the line on single
spaces and decode the token sequence. -/
def LineCard.parse_from (line_str : String) : Except RuntimeError LineCard :=
  parse_from_tokens (splitOnChar ' ' line_str.data)

/-- `LineCard::to_url` (main.rs lines 119-124): the lookup URL, with the
`code` field as the first path segment after `/cards/` and the `set`
field as the second. -/
def LineCard.to_url (lc : LineCard) : String :=
  "https://api.scryfall.com/cards/" ++ lc.code ++ "/" ++ lc.set

/-- Outcome of one HTTP GET: transport failure, unreadable body, or a
readable text body represented by its JSON parse result (`none` when the
text is not valid JSON). -/
inductive HttpResult where
  | transportError
  | bodyError
  | body (json : Option Json)

/-- `LineCard::download` (main.rs lines 76-86): one GET at `to_url`;
transport failure becomes `WebRequestError`, an unreadable body becomes
`WebRequestBodyParseError`, otherwise the body is returned. -/
def LineCard.download (http : String → HttpResult) (lc : LineCard) :
    Except RuntimeError (Option Json) :=
  match http lc.to_url with
  | .transportError => .error RuntimeError.WebRequestError
  | .bodyError => .error RuntimeError.WebRequestBodyParseError
  | .body j => .ok j

/-- `parse_json::<CardFace>` (main.rs lines 143-150) applied to a body. -/
def parse_json_CardFace (data : Option Json) : Option CardFace :=
  data.bind decodeCardFace

/-- `parse_json::<MultiCardFace>` (main.rs lines 143-150) applied to a body. -/
def parse_json_MultiCardFace (data : Option Json) : Option MultiCardFace :=
  data.bind decodeMultiCardFace

/-- The face-allocation branch of `exec` (main.rs lines 183-199): try the
single-face shape first and replicate the face `count` times; otherwise
try the multi-face shape and replicate the whole face list `count` times,
flattened; otherwise fail with `ParseJsonError`. -/
def allocateFaces (count : Nat) (json_data : Option Json) :
    Except RuntimeError (List CardFace) :=
  match parse_json_CardFace json_data with
  | some card => .ok (List.replicate count card)
  | none =>
    match parse_json_MultiCardFace json_data with
    | some mc => .ok (List.flatten (List.replicate count mc.card_faces))
    | none => .error RuntimeError.ParseJsonError

/-- `CardFace::img_content` (main.rs lines 127-131). -/
def CardFace.img_content (cf : CardFace) : String :=
  "<li><img src=\"" ++ cf.image_uris.large ++ "\"></li>"

/-- `MultiCardFace::img_content` (main.rs lines 133-141). -/
def MultiCardFace.img_content (mc : MultiCardFace) : String :=
  String.join (mc.card_faces.map CardFace.img_content)

/-- The loop body of `group_every_9` (main.rs lines 152-169): push the
face onto the open group, close the group whenever `counter % 9 = 0`
(checked before the counter is incremented), and return only the closed
groups when the input is exhausted. -/
def group_every_9_go (counter : Nat) (inner_v : List CardFace)
    (outer_v : List (List CardFace)) : List CardFace → List (List CardFace)
  | [] => outer_v
  | f :: rest =>
    let inner := inner_v ++ [f]
    if counter % 9 = 0 then group_every_9_go (counter + 1) [] (outer_v ++ [inner]) rest
    else group_every_9_go (counter + 1) inner outer_v rest

/-- `group_every_9` (main.rs lines 152-169). -/
def group_every_9 (card_faces : List CardFace) : List (List CardFace) :=
  group_every_9_go 0 [] [] card_faces

/-- `PRINTER_STYLE_HTML` (main.rs lines 17-37), after `indoc` unindenting. -/
def PRINTER_STYLE_HTML : String :=
  "<style>\n\tbody \x7b\n\t\tmargin: 0;\n\t\tpadding: 0;\n\t\twidth: 210mm;\n\t\x7d\n\tul \x7b\n\t\talign-content: flex-start;\n\t\tdisplay: flex;\n\t\tflex-wrap: wrap;\n\t\tmargin: 0;\n\t\tpadding: 0;\n\t\tpage-break-inside: avoid;\n\t\x7d\n\timg \x7b\n\t\theight: 88mm;\n\t\twidth: 63mm;\n\t\x7d\n</style>\n"

/-- `HEAD_HTML` (main.rs lines 10-15). -/
def HEAD_HTML : String :=
  "<head>" ++ PRINTER_STYLE_HTML ++ "<title>Scryfall Proxy</title>" ++ "</head>"

/-- `BEGIN_DOCUMENT_HTML` (main.rs lines 4-5). -/
def BEGIN_DOCUMENT_HTML : String :=
  "<!DOCTYPE html>" ++ "<html>" ++ HEAD_HTML ++ "<body>" ++ "<ul>"

/-- `END_DOCUMENT_HTML` (main.rs lines 7-8). -/
def END_DOCUMENT_HTML : String :=
  "</ul>" ++ "</body>" ++ "</html>"

/-- Rust `Vec<String>::join(sep)`: the pieces with `sep` between
consecutive pieces. -/
def joinSep (sep : String) : List String → String
  | [] => ""
  | [s] => s
  | s :: rest => s ++ sep ++ joinSep sep rest

/-- One page's markup: the face images concatenated (main.rs lines 204-210,
a `join("")`). -/
def pageStr (pg : List CardFace) : String :=
  joinSep "" (pg.map CardFace.img_content)

/-- `body_html` of `exec` (main.rs lines 202-212): pages joined with the
`"</ul><ul>"` page boundary. -/
def renderBody (pages : List (List CardFace)) : String :=
  joinSep "</ul><ul>" (pages.map pageStr)

/-- The full document assembled by `exec` (main.rs lines 214-218). -/
def renderDocument (pages : List (List CardFace)) : String :=
  BEGIN_DOCUMENT_HTML ++ renderBody pages ++ END_DOCUMENT_HTML

/-- One iteration of the `exec` loop (main.rs lines 175-200): a stdin read
error aborts with `ParseStdinError`; otherwise decode the line, download
the body and append the allocated faces to the running sequence. -/
def processLine (http : String → HttpResult) (faces : List CardFace)
    (maybe_line : Except Unit String) : Except RuntimeError (List CardFace) :=
  match maybe_line with
  | .error _ => .error RuntimeError.ParseStdinError
  | .ok line =>
    match LineCard.parse_from line with
    | .error e => .error e
    | .ok line_card =>
      match line_card.download http with
      | .error e => .error e
      | .ok json_data =>
        match allocateFaces line_card.count json_data with
        | .error e => .error e
        | .ok allocated => .ok (faces ++ allocated)

/-- The `exec` loop over the whole input stream, threading the running
face sequence; the first error aborts. -/
def processLines (http : String → HttpResult) :
    List (Except Unit String) → List CardFace → Except RuntimeError (List CardFace)
  | [], faces => .ok faces
  | l :: rest, faces =>
    match processLine http faces l with
    | .error e => .error e
    | .ok faces2 => processLines http rest faces2

/-- `exec` (main.rs lines 171-219): process every line, then paginate and
render; the result is the whole document or the first error. -/
def exec (http : String → HttpResult) (input : List (Except Unit String)) :
    Except RuntimeError String :=
  match processLines http input [] with
  | .error e => .error e
  | .ok faces => .ok (renderDocument (group_every_9 faces))

/-- `err_msg` (main.rs lines 222-251): the per-error diagnostic text. -/
def err_msg (e : RuntimeError) : String :=
  match e with
  | RuntimeError.InvalidCardCountNumberError =>
    "\nInput format per line is \"<x> <y> <z>\".\n\t• <x> is the card count in the deck.\n\t• <y> is the scryfall card set.\n\t• <z> is the scryfall card code.\n\n<x> failed to parse as a positive integer less than 256.\n"
  | RuntimeError.MalformedLineError =>
    "\n\tInput parse failed.\n\tInput format per line is <x> <y> <z>.\n\t\t• <x> is the card count in the deck.\n\t\t• <y> is the scryfall card set.\n\t\t• <z> is the scryfall card code.\n"
  | RuntimeError.ParseJsonError =>
    "JSON response parsing failed. However, the actual web request succeeded."
  | RuntimeError.ParseStdinError =>
    "STDIN failed to parse."
  | RuntimeError.WebRequestBodyParseError =>
    "Card web request downloaded successfully, but the body was malformed."
  | RuntimeError.WebRequestError =>
    "Card web request failed."

/-- The observable outcome of one process run. -/
structure ProcOutcome where
  stdout : String
  stderr : String
  exitCode : Nat
  deriving DecidableEq

/-- `main` (main.rs lines 253-261): print the document and exit 0 on
success; print the diagnostic on stderr and exit 1 on error, writing
nothing to stdout. -/
def mainRun (http : String → HttpResult) (input : List (Except Unit String)) :
    ProcOutcome :=
  match exec http input with
  | .ok s => ⟨s ++ "\n", "", 0⟩
  | .error e => ⟨"", err_msg e ++ "\n", 1⟩

/-- The elements at odd positions (0-based) of a list; applied to the
quote-split of the document this extracts the `src` attribute values,
since the rendered markup contains a quote character exactly around each
image source. -/
def oddIdx {α : Type} : List α → List α
  | _ :: b :: rest => b :: oddIdx rest
  | _ => []

/-- The number of positions where the character `<` is immediately
followed by `u`; in the rendered markup this counts exactly the `<ul>`
page-container openings. -/
def countOpenUl : List Char → Nat
  | a :: b :: rest => (if a = '<' ∧ b = 'u' then 1 else 0) + countOpenUl (b :: rest)
  | _ => 0

/-- The characters of `img_content` before the opening quote of `src`. -/
def imgPreChars : List Char := ("<li><img src=" : String).data

/-- The characters of `img_content` after the closing quote of `src`. -/
def imgPostChars : List Char := (">" ++ "</li>" : String).data

/-- Tokens joined by single spaces (the inverse of `splitOnChar ' '` on
space-free tokens). -/
def joinTokens : List (List Char) → List Char
  | [] => []
  | [t] => t
  | t :: rest => t ++ ' ' :: joinTokens rest

/-- A face with the given image URL (concrete-input helper). -/
def mkFace (u : String) : CardFace := ⟨⟨u⟩⟩

/-- A single-face JSON body with image URL `u` (concrete-input helper). -/
def jsonSingle (u : String) : Json :=
  .obj [("image_uris", .obj [("large", .str u)])]

/-- A multi-face JSON body with the given face URLs (concrete-input helper). -/
def jsonMulti (us : List String) : Json :=
  .obj [("card_faces", .arr (us.map jsonSingle))]

/-- A concrete HTTP world: serves a single-face body with URL `u` at the
card `a` / set `b` lookup URL and fails at the transport level elsewhere. -/
def http0 : String → HttpResult := fun q =>
  if q = "https://api.scryfall.com/cards/a/b"
  then .body (some (jsonSingle "u")) else .transportError

/-! ## Helper lemmas about the split, join and counting functions -/

theorem splitOnChar_ne_nil (sep : Char) (l : List Char) : splitOnChar sep l ≠ [] := by
  cases l with
  | nil => simp [splitOnChar]
  | cons c cs =>
    simp only [splitOnChar]
    rcases h : splitOnChar sep cs with _ | ⟨g, gs⟩
    · simp
    · by_cases hc : c = sep <;> simp [hc]

theorem splitOnChar_cons_ex (sep : Char) (l : List Char) :
    ∃ g gs, splitOnChar sep l = g :: gs := by
  rcases h : splitOnChar sep l with _ | ⟨g, gs⟩
  · exact absurd h (splitOnChar_ne_nil sep l)
  · exact ⟨g, gs, rfl⟩

theorem splitOnChar_no_sep {sep : Char} {l : List Char} (h : sep ∉ l) :
    splitOnChar sep l = [l] := by
  induction l with
  | nil => rfl
  | cons c cs ih =>
    have hc : ¬ c = sep := fun hh => h (by simp [hh])
    have hcs : sep ∉ cs := fun hh => h (by simp [hh])
    simp [splitOnChar, ih hcs, hc]

theorem splitOnChar_append_sep {sep : Char} {xs : List Char} (ys : List Char)
    (h : sep ∉ xs) :
    splitOnChar sep (xs ++ sep :: ys) = xs :: splitOnChar sep ys := by
  induction xs with
  | nil =>
    obtain ⟨g, gs, hg⟩ := splitOnChar_cons_ex sep ys
    simp [splitOnChar, hg]
  | cons c cs ih =>
    have hc : ¬ c = sep := fun hh => h (by simp [hh])
    have hcs : sep ∉ cs := fun hh => h (by simp [hh])
    simp [splitOnChar, ih hcs, hc]

theorem splitOnChar_append_no_sep {sep : Char} {xs : List Char} (ys : List Char)
    (h : sep ∉ xs) :
    splitOnChar sep (xs ++ ys) =
      (xs ++ (splitOnChar sep ys).headD []) :: (splitOnChar sep ys).tail := by
  induction xs with
  | nil =>
    obtain ⟨g, gs, hg⟩ := splitOnChar_cons_ex sep ys
    simp [hg]
  | cons c cs ih =>
    have hc : ¬ c = sep := fun hh => h (by simp [hh])
    have hcs : sep ∉ cs := fun hh => h (by simp [hh])
    simp [splitOnChar, ih hcs, hc]

theorem oddIdx_head_irrel {α : Type} (a b : α) (t : List α) :
    oddIdx (a :: t) = oddIdx (b :: t) := by
  cases t <;> rfl

theorem oddIdx_splitOnChar_append {sep : Char} {xs : List Char} (ys : List Char)
    (h : sep ∉ xs) :
    oddIdx (splitOnChar sep (xs ++ ys)) = oddIdx (splitOnChar sep ys) := by
  rw [splitOnChar_append_no_sep ys h]
  obtain ⟨g, gs, hg⟩ := splitOnChar_cons_ex sep ys
  rw [hg]
  simpa using oddIdx_head_irrel (xs ++ g) g gs

theorem strdata_append (s t : String) : (s ++ t).data = s.data ++ t.data := by
  cases s; cases t; rfl

theorem splitOnChar_joinTokens (ts : List (List Char)) (hne : ts ≠ [])
    (hf : ∀ t ∈ ts, ' ' ∉ t) :
    splitOnChar ' ' (joinTokens ts) = ts := by
  induction ts with
  | nil => exact absurd rfl hne
  | cons t rest ih =>
    cases rest with
    | nil => exact splitOnChar_no_sep (hf t (by simp))
    | cons t2 r2 =>
      have hj : joinTokens (t :: t2 :: r2) = t ++ ' ' :: joinTokens (t2 :: r2) := rfl
      rw [hj, splitOnChar_append_sep _ (hf t (by simp)),
        ih (by simp) (fun u hu => hf u (by simp [hu]))]

/-! ## Claims about the Line Decoder and Paginator -/

/-- Claim C1 (code_bug evidence): `group_every_9` closes the first page
after a single face (the counter is tested before it is incremented) and
never pushes the final open group, so for a three-face input it yields a
single one-face page and drops the other two faces, and for a ten-face
input it yields pages of sizes 1 and 9 instead of 9 and 1.  The claim
(pages of nine, concatenation reproducing the input) is the evident
intent of the function. -/
theorem C1_group_every_9_drops_faces :
    group_every_9 [mkFace "u1", mkFace "u2", mkFace "u3"] = [[mkFace "u1"]] ∧
    List.flatten (group_every_9 [mkFace "u1", mkFace "u2", mkFace "u3"]) ≠
      [mkFace "u1", mkFace "u2", mkFace "u3"] ∧
    (group_every_9 (List.replicate 10 (mkFace "u"))).map List.length = [1, 9] := by
  refine ⟨by decide, by decide, by decide⟩

/-- Claim C2: the lookup URL puts the `code` field as the first path
segment after `/cards/` and the `set` field as the second, and `download`
consults the HTTP collaborator only at that single URL: two worlds that
agree on `to_url` give identical download results. -/
theorem C2_single_get_and_url (lc : LineCard) (h1 h2 : String → HttpResult)
    (hagree : h1 lc.to_url = h2 lc.to_url) :
    lc.to_url = "https://api.scryfall.com/cards/" ++ lc.code ++ "/" ++ lc.set ∧
    lc.download h1 = lc.download h2 := by
  constructor
  · rfl
  · unfold LineCard.download
    rw [hagree]

/-- Witness for C2 at a concrete card. -/
theorem C2_witness :
    ({ count := 1, code := "a", set := "b" } : LineCard).to_url =
      "https://api.scryfall.com/cards/" ++ "a" ++ "/" ++ "b" ∧
    LineCard.download http0 { count := 1, code := "a", set := "b" } =
      LineCard.download (fun _ => HttpResult.body (some (jsonSingle "u")))
        { count := 1, code := "a", set := "b" } :=
  C2_single_get_and_url { count := 1, code := "a", set := "b" } http0
    (fun _ => HttpResult.body (some (jsonSingle "u")))
    (by rw [show ({ count := 1, code := "a", set := "b" } : LineCard).to_url =
        "https://api.scryfall.com/cards/a/b" from by decide]
        simp [http0])

/-- Claim C3 is false as stated: the empty line has fewer than three
space-separated tokens (splitting yields the single empty token), yet
decoding fails with `InvalidCardCountNumberError`, not
`MalformedLineError`, because the count token is validated first. -/
theorem C3_counterexample :
    (splitOnChar ' ' ("" : String).data).length < 3 ∧
    LineCard.parse_from "" = .error RuntimeError.InvalidCardCountNumberError ∧
    RuntimeError.InvalidCardCountNumberError ≠ RuntimeError.MalformedLineError := by
  refine ⟨by decide, by decide, by decide⟩

/-- Claim C3 (amended): a line with fewer than three space-separated
tokens whose first token does parse as an integer in `[0, 255]` fails
with `MalformedLineError`. -/
theorem C3_short_line_malformed (line : String) (n : Nat)
    (h1 : parseU8 ((splitOnChar ' ' line.data).headD []) = some n)
    (h2 : (splitOnChar ' ' line.data).length < 3) :
    LineCard.parse_from line = .error RuntimeError.MalformedLineError := by
  unfold LineCard.parse_from
  rcases hs : splitOnChar ' ' line.data with _ | ⟨t1, rest⟩
  · exact absurd hs (splitOnChar_ne_nil ' ' line.data)
  · rw [hs] at h1 h2
    simp only [List.headD] at h1
    rw [parse_from_tokens, h1]
    rcases rest with _ | ⟨t2, rest2⟩
    · rfl
    · rcases rest2 with _ | ⟨t3, rest3⟩
      · rfl
      · simp at h2
        omega

/-- Witness for the amended C3 at the line `"3"`. -/
theorem C3_witness :
    parseU8 ((splitOnChar ' ' ("3" : String).data).headD []) = some 3 ∧
    (splitOnChar ' ' ("3" : String).data).length < 3 ∧
    LineCard.parse_from "3" = .error RuntimeError.MalformedLineError :=
  ⟨by decide, by decide, C3_short_line_malformed "3" 3 (by decide) (by decide)⟩

/-- Claim C7 (code_bug evidence): on the well-formed line `"1 ABC 123"`
the decoder stores the second token `"ABC"` in the field named `code`
and the third token `"123"` in the field named `set` — the opposite of
the claim and of the program's own usage message (`err_msg`), which says
the second token is the card set and the third the card code. -/
theorem C7_parse_from_swaps_set_and_code :
    LineCard.parse_from "1 ABC 123" =
      .ok { count := 1, code := "ABC", set := "123" } ∧
    ("ABC" : String) ≠ "123" := by
  refine ⟨by decide, by decide⟩

/-- Claim C10: a line with more than three space-free tokens whose first
token parses as an integer in `[0, 255]` decodes successfully from the
first three tokens; all tokens after the third are ignored (the result
does not depend on `rest`). -/
theorem C10_extra_tokens_ignored (line : String) (t1 t2 t3 : List Char)
    (rest : List (List Char)) (n : Nat)
    (hline : line.data = joinTokens (t1 :: t2 :: t3 :: rest))
    (hrest : rest ≠ [])
    (hsp : ∀ t ∈ t1 :: t2 :: t3 :: rest, ' ' ∉ t)
    (hn : parseU8 t1 = some n) :
    LineCard.parse_from line = .ok { count := n, code := ⟨t2⟩, set := ⟨t3⟩ } := by
  unfold LineCard.parse_from
  rw [hline, splitOnChar_joinTokens _ (by simp) hsp, parse_from_tokens, hn]
  rfl

/-- Witness for C10 at the four-token line `"1 a b c"`. -/
theorem C10_witness :
    ("1 a b c" : String).data = joinTokens [['1'], ['a'], ['b'], ['c']] ∧
    parseU8 ['1'] = some 1 ∧
    LineCard.parse_from "1 a b c" = .ok { count := 1, code := "a", set := "b" } :=
  ⟨by decide, by decide,
    C10_extra_tokens_ignored "1 a b c" ['1'] ['a'] ['b'] [['c']] 1 (by decide)
      (by decide) (by decide) (by decide)⟩

/-! ## Claims about the Face Normalizer -/

/-- Claim C6: when the body decodes as the single-face shape, the
normalizer yields exactly `k` faces, all carrying the same image URL. -/
theorem C6_single_face_replication (k : Nat) (body : Option Json) (card : CardFace)
    (h : parse_json_CardFace body = some card) :
    allocateFaces k body = .ok (List.replicate k card) ∧
    (List.replicate k card).length = k ∧
    ∀ f ∈ List.replicate k card, f.image_uris.large = card.image_uris.large := by
  refine ⟨?_, List.length_replicate k card, ?_⟩
  · unfold allocateFaces
    rw [h]
  · intro f hf
    rw [List.eq_of_mem_replicate hf]

/-- Witness for C6: a single-face body replicated three times. -/
theorem C6_witness :
    allocateFaces 3 (some (jsonSingle "u")) = .ok (List.replicate 3 (mkFace "u")) ∧
    (List.replicate 3 (mkFace "u")).length = 3 ∧
    ∀ f ∈ List.replicate 3 (mkFace "u"),
      f.image_uris.large = (mkFace "u").image_uris.large :=
  C6_single_face_replication 3 (some (jsonSingle "u")) (mkFace "u") rfl

/-- Claim C5: when the body does not decode as the single-face shape but
does decode as the multi-face shape with face list `mc.card_faces`, the
normalizer yields that face list replicated `k` times in order, hence
`k * m` faces for `m` sub-faces. -/
theorem C5_multi_face_replication (k : Nat) (body : Option Json) (mc : MultiCardFace)
    (h1 : parse_json_CardFace body = none)
    (h2 : parse_json_MultiCardFace body = some mc) :
    allocateFaces k body = .ok (List.flatten (List.replicate k mc.card_faces)) ∧
    (List.flatten (List.replicate k mc.card_faces)).length = k * mc.card_faces.length := by
  constructor
  · unfold allocateFaces
    rw [h1, h2]
  · induction k with
    | zero => simp
    | succ k ih =>
      simp only [List.replicate_succ, List.flatten_cons, List.length_append, ih,
        Nat.succ_mul]
      omega

/-- Witness for C5: a two-face body replicated twice gives the four faces
`u1, u2, u1, u2`. -/
theorem C5_witness :
    allocateFaces 2 (some (jsonMulti ["u1", "u2"])) =
      .ok (List.flatten (List.replicate 2
        (MultiCardFace.mk [mkFace "u1", mkFace "u2"]).card_faces)) ∧
    (List.flatten (List.replicate 2
        (MultiCardFace.mk [mkFace "u1", mkFace "u2"]).card_faces)).length =
      2 * (MultiCardFace.mk [mkFace "u1", mkFace "u2"]).card_faces.length :=
  C5_multi_face_replication 2 (some (jsonMulti ["u1", "u2"]))
    ⟨[mkFace "u1", mkFace "u2"]⟩ rfl rfl

/-- Claim C8: a requested count of zero yields zero faces for either
accepted shape, and the pipeline treats the line as a success: the
running face sequence is unchanged and processing continues. -/
theorem C8_count_zero_continues (http : String → HttpResult) (faces : List CardFace)
    (line : String) (lc : LineCard) (body : Option Json)
    (h1 : LineCard.parse_from line = .ok lc) (h2 : lc.count = 0)
    (h3 : lc.download http = .ok body)
    (h4 : (parse_json_CardFace body).isSome = true ∨
      (parse_json_MultiCardFace body).isSome = true) :
    allocateFaces 0 body = .ok [] ∧
    processLine http faces (.ok line) = .ok faces := by
  have halloc : allocateFaces 0 body = .ok [] := by
    unfold allocateFaces
    rcases hcf : parse_json_CardFace body with _ | c
    · rcases hmf : parse_json_MultiCardFace body with _ | mc
      · rw [hcf, hmf] at h4
        simp at h4
      · simp
    · simp
  refine ⟨halloc, ?_⟩
  simp only [processLine, h1, h3, h2, halloc, List.append_nil]

/-- Witness for C8 at the line `"0 a b"` against the concrete world
`http0`. -/
theorem C8_witness :
    allocateFaces 0 (some (jsonSingle "u")) = .ok [] ∧
    processLine http0 [mkFace "w"] (.ok "0 a b") = .ok [mkFace "w"] :=
  C8_count_zero_continues http0 [mkFace "w"] "0 a b"
    { count := 0, code := "a", set := "b" } (some (jsonSingle "u"))
    (by decide) rfl
    (by unfold LineCard.download
        rw [show ({ count := 0, code := "a", set := "b" } : LineCard).to_url =
          "https://api.scryfall.com/cards/a/b" from by decide]
        simp [http0])
    (Or.inl rfl)

/-! ## Claim about the Pipeline Driver -/

theorem processLines_append (http : String → HttpResult)
    (pre suf : List (Except Unit String)) (acc : List CardFace) :
    processLines http (pre ++ suf) acc =
      match processLines http pre acc with
      | .ok fs => processLines http suf fs
      | .error e => .error e := by
  induction pre generalizing acc with
  | nil => simp [processLines]
  | cons l pre ih =>
    simp only [List.cons_append, processLines]
    rcases h : processLine http acc l with e | fs
    · rfl
    · exact ih fs

/-- Claim C4: the first failing line aborts the whole pipeline.  If the
lines before it succeed (yielding faces `F`) and line `bad` fails with
`e`, the pipeline result is exactly `error e` no matter what the
remaining lines are (they are not processed and no fetched face is
rendered), and the process writes nothing to standard output, writes the
diagnostic to standard error, and exits with status 1. -/
theorem C4_first_error_aborts (http : String → HttpResult)
    (pre rest : List (Except Unit String)) (bad : Except Unit String)
    (F : List CardFace) (e : RuntimeError)
    (h1 : processLines http pre [] = .ok F)
    (h2 : processLine http F bad = .error e) :
    exec http (pre ++ bad :: rest) = .error e ∧
    mainRun http (pre ++ bad :: rest) = ⟨"", err_msg e ++ "\n", 1⟩ := by
  have hex : exec http (pre ++ bad :: rest) = .error e := by
    unfold exec
    rw [processLines_append, h1]
    simp only [processLines]
    rw [h2]
  refine ⟨hex, ?_⟩
  unfold mainRun
  rw [hex]

/-- Witness for C4: against `http0`, the line `"1 a b"` succeeds with one
face, the line `"1 c d"` fails at the transport level, and a further
line is never reached: the run fails with `WebRequestError`, writes
nothing to stdout and exits 1. -/
theorem C4_witness :
    exec http0 ([.ok "1 a b"] ++ .ok "1 c d" :: [.ok "1 a b"]) =
      .error RuntimeError.WebRequestError ∧
    mainRun http0 ([.ok "1 a b"] ++ .ok "1 c d" :: [.ok "1 a b"]) =
      ⟨"", err_msg RuntimeError.WebRequestError ++ "\n", 1⟩ :=
  C4_first_error_aborts http0 [.ok "1 a b"] [.ok "1 a b"] (.ok "1 c d")
    [mkFace "u"] RuntimeError.WebRequestError (by decide) (by decide)

/-! ## Claims about the Document Renderer -/

theorem countOpenUl_append (xs ys : List Char) :
    countOpenUl (xs ++ ys) =
      countOpenUl xs + countOpenUl ys +
        (if xs.getLast? = some '<' ∧ ys.head? = some 'u' then 1 else 0) := by
  induction xs with
  | nil => simp [countOpenUl]
  | cons a t ih =>
    cases t with
    | nil =>
      cases ys with
      | nil => simp [countOpenUl]
      | cons y ys' =>
        show countOpenUl (a :: y :: ys') = _
        rw [countOpenUl]
        by_cases h : a = '<' ∧ y = 'u' <;>
          simp [countOpenUl, List.getLast?_singleton, List.head?, h] <;> omega
    | cons b t' =>
      show countOpenUl (a :: b :: (t' ++ ys)) = _
      rw [countOpenUl, List.getLast?_cons_cons]
      have ih' := ih
      rw [List.cons_append] at ih'
      rw [ih']
      show _ = countOpenUl (a :: b :: t') + _ + _
      rw [countOpenUl]
      generalize (if a = '<' ∧ b = 'u' then 1 else 0) = i1
      generalize (if (b :: t').getLast? = some '<' ∧ ys.head? = some 'u' then 1 else 0) = i2
      omega

theorem countOpenUl_eq_zero {l : List Char} (h : '<' ∉ l) : countOpenUl l = 0 := by
  induction l with
  | nil => rfl
  | cons a t ih =>
    cases t with
    | nil => rfl
    | cons b r =>
      have ha : ¬ (a = '<' ∧ b = 'u') := fun hh => h (by simp [hh.1])
      have step : countOpenUl (a :: b :: r) =
          (if a = '<' ∧ b = 'u' then 1 else 0) + countOpenUl (b :: r) := rfl
      rw [step, ih (fun hh => h (List.mem_cons_of_mem a hh)), if_neg ha]

theorem getLast?_ne_of_not_mem {α : Type} {a : α} :
    ∀ {l : List α}, a ∉ l → l.getLast? ≠ some a
  | [], _, hl => by simp at hl
  | [b], h, hl => by
    simp only [List.getLast?_singleton, Option.some.injEq] at hl
    exact h (by simp [hl])
  | b :: c :: t, h, hl => by
    rw [List.getLast?_cons_cons] at hl
    exact getLast?_ne_of_not_mem (fun hm => h (List.mem_cons_of_mem b hm)) hl

theorem imgdata (f : CardFace) :
    (CardFace.img_content f).data =
      imgPreChars ++ '\"' :: (f.image_uris.large.data ++ '\"' :: imgPostChars) := by
  unfold CardFace.img_content
  rw [strdata_append, strdata_append]
  have h1 : ("<li><img src=\"" : String).data = imgPreChars ++ ['\"'] := by decide
  have h2 : ("\"></li>" : String).data = '\"' :: imgPostChars := by decide
  rw [h1, h2]
  simp [List.append_assoc]

theorem oddIdx_splitQ_img (f : CardFace) (z : List Char)
    (hq : '\"' ∉ f.image_uris.large.data) :
    oddIdx (splitOnChar '\"' ((CardFace.img_content f).data ++ z)) =
      f.image_uris.large.data :: oddIdx (splitOnChar '\"' z) := by
  rw [imgdata]
  have hshape :
      (imgPreChars ++ '\"' :: (f.image_uris.large.data ++ '\"' :: imgPostChars)) ++ z =
      imgPreChars ++ '\"' :: (f.image_uris.large.data ++ '\"' :: (imgPostChars ++ z)) := by
    simp [List.append_assoc]
  rw [hshape, splitOnChar_append_sep _ (by decide), splitOnChar_append_sep _ hq]
  simp only [oddIdx]
  rw [oddIdx_splitOnChar_append _ (by decide)]

theorem pagedata (f : CardFace) (pg : List CardFace) :
    (pageStr (f :: pg)).data = (CardFace.img_content f).data ++ (pageStr pg).data := by
  have hE : ("" : String).data = ([] : List Char) := rfl
  cases pg with
  | nil =>
    show (joinSep "" [CardFace.img_content f]).data = _
    simp [pageStr, joinSep, hE]
  | cons f2 r =>
    show (CardFace.img_content f ++ "" ++
      joinSep "" ((f2 :: r).map CardFace.img_content)).data = _
    rw [strdata_append, strdata_append, hE]
    simp [pageStr]

theorem oddIdx_splitQ_page (pg : List CardFace) (z : List Char)
    (hq : ∀ f ∈ pg, '\"' ∉ f.image_uris.large.data) :
    oddIdx (splitOnChar '\"' ((pageStr pg).data ++ z)) =
      pg.map (fun f => f.image_uris.large.data) ++ oddIdx (splitOnChar '\"' z) := by
  induction pg with
  | nil =>
    have h0 : (pageStr ([] : List CardFace)).data = [] := rfl
    rw [h0]
    simp
  | cons f pg ih =>
    rw [pagedata, List.append_assoc, oddIdx_splitQ_img f _ (hq f (by simp)),
      ih (fun g hg => hq g (by simp [hg]))]
    simp

theorem bodydata_cons₂ (pg pg2 : List CardFace) (r : List (List CardFace)) :
    (renderBody (pg :: pg2 :: r)).data =
      (pageStr pg).data ++
        (("</ul><ul>" : String).data ++ (renderBody (pg2 :: r)).data) := by
  show (pageStr pg ++ "</ul><ul>" ++
    joinSep "</ul><ul>" ((pg2 :: r).map pageStr)).data = _
  rw [strdata_append, strdata_append]
  simp [renderBody, List.append_assoc]

theorem oddIdx_splitQ_body (pages : List (List CardFace)) (z : List Char)
    (hq : ∀ f ∈ pages.flatten, '\"' ∉ f.image_uris.large.data) :
    oddIdx (splitOnChar '\"' ((renderBody pages).data ++ z)) =
      (pages.flatten).map (fun f => f.image_uris.large.data) ++
        oddIdx (splitOnChar '\"' z) := by
  induction pages with
  | nil =>
    have h0 : (renderBody []).data = [] := rfl
    rw [h0]
    simp
  | cons pg rest ih =>
    cases rest with
    | nil =>
      have h1 : renderBody [pg] = pageStr pg := rfl
      rw [h1, oddIdx_splitQ_page pg z (fun f hf => hq f (by simpa using hf))]
      simp
    | cons pg2 r2 =>
      rw [bodydata_cons₂]
      simp only [List.append_assoc]
      rw [oddIdx_splitQ_page pg _
          (fun f hf => hq f (by rw [List.flatten_cons]; exact List.mem_append_left _ hf)),
        oddIdx_splitOnChar_append _ (by decide),
        ih (fun f hf => hq f (by rw [List.flatten_cons]; exact List.mem_append_right _ hf))]
      simp

theorem countOpenUl_img (f : CardFace) (hlt : '<' ∉ f.image_uris.large.data) :
    countOpenUl (CardFace.img_content f).data = 0 ∧
    ((CardFace.img_content f).data).getLast? = some ('>' : Char) := by
  have hdata : (CardFace.img_content f).data =
      ("<li><img src=\"" : String).data ++
        (f.image_uris.large.data ++ ("\"></li>" : String).data) := by
    unfold CardFace.img_content
    rw [strdata_append, strdata_append, List.append_assoc]
  have hpre : (("<li><img src=\"" : String).data).getLast? = some ('\"' : Char) := by
    decide
  have hpost : (("\"></li>" : String).data).head? = some ('\"' : Char) := by decide
  constructor
  · rw [hdata, countOpenUl_append, countOpenUl_append, countOpenUl_eq_zero hlt]
    have hA : countOpenUl ("<li><img src=\"" : String).data = 0 := by decide
    have hB : countOpenUl ("\"></li>" : String).data = 0 := by decide
    have e1 : (if (("<li><img src=\"" : String).data.getLast? = some '<' ∧
        (f.image_uris.large.data ++ ("\"></li>" : String).data).head? = some 'u')
        then 1 else 0) = 0 := by
      apply if_neg
      rintro ⟨hl, -⟩
      rw [hpre] at hl
      exact (by decide : ('\"' : Char) ≠ '<') (Option.some.inj hl)
    have e2 : (if (f.image_uris.large.data.getLast? = some '<' ∧
        (("\"></li>" : String).data).head? = some 'u') then 1 else 0) = 0 := by
      apply if_neg
      rintro ⟨-, hu⟩
      rw [hpost] at hu
      exact (by decide : ('\"' : Char) ≠ 'u') (Option.some.inj hu)
    rw [hA, hB, e1, e2]
  · rw [hdata, List.getLast?_append_of_ne_nil _ ?hne1,
      List.getLast?_append_of_ne_nil _ ?hne2]
    case hne2 => decide
    case hne1 =>
      intro hh
      rw [List.append_eq_nil] at hh
      exact absurd hh.2 (by decide)
    decide

theorem countOpenUl_page (pg : List CardFace)
    (hlt : ∀ f ∈ pg, '<' ∉ f.image_uris.large.data) :
    countOpenUl (pageStr pg).data = 0 ∧
    ((pageStr pg).data = [] ∨ ((pageStr pg).data).getLast? = some ('>' : Char)) := by
  induction pg with
  | nil => exact ⟨rfl, Or.inl rfl⟩
  | cons f pg ih =>
    obtain ⟨ihc, ihl⟩ := ih (fun g hg => hlt g (by simp [hg]))
    obtain ⟨hbc, hbl⟩ := countOpenUl_img f (hlt f (by simp))
    constructor
    · rw [pagedata, countOpenUl_append, ihc, hbc]
      have e : (if ((CardFace.img_content f).data.getLast? = some '<' ∧
          ((pageStr pg).data).head? = some 'u') then 1 else 0) = 0 := by
        apply if_neg
        rintro ⟨hl, -⟩
        rw [hbl] at hl
        exact (by decide : ('>' : Char) ≠ '<') (Option.some.inj hl)
      rw [e]
    · rcases ihl with h0 | hlast
      · rw [pagedata, h0, List.append_nil]
        exact Or.inr hbl
      · refine Or.inr ?_
        rw [pagedata, List.getLast?_append_of_ne_nil _ ?hne]
        · exact hlast
        case hne =>
          intro hh
          rw [hh] at hlast
          exact Option.noConfusion hlast

theorem countOpenUl_body (pages : List (List CardFace)) (hne : pages ≠ [])
    (hlt : ∀ f ∈ pages.flatten, '<' ∉ f.image_uris.large.data) :
    countOpenUl (renderBody pages).data = pages.length - 1 := by
  induction pages with
  | nil => exact absurd rfl hne
  | cons pg rest ih =>
    cases rest with
    | nil =>
      have h1 : renderBody [pg] = pageStr pg := rfl
      rw [h1, (countOpenUl_page pg (fun f hf => hlt f (by simpa using hf))).1]
      simp
    | cons pg2 r2 =>
      have hsepc : countOpenUl ("</ul><ul>" : String).data = 1 := by decide
      have hseph : (("</ul><ul>" : String).data).head? = some ('<' : Char) := by decide
      have hsepl : (("</ul><ul>" : String).data).getLast? = some ('>' : Char) := by
        decide
      rw [bodydata_cons₂, countOpenUl_append, countOpenUl_append, hsepc,
        (countOpenUl_page pg
          (fun f hf => hlt f (by rw [List.flatten_cons]; exact List.mem_append_left _ hf))).1,
        ih (by simp)
          (fun f hf => hlt f (by rw [List.flatten_cons]; exact List.mem_append_right _ hf))]
      have e1 : (if ((pageStr pg).data.getLast? = some '<' ∧
          (("</ul><ul>" : String).data ++ (renderBody (pg2 :: r2)).data).head? =
            some 'u') then 1 else 0) = 0 := by
        apply if_neg
        rintro ⟨-, hu⟩
        rw [List.head?_append_of_ne_nil _ (by decide), hseph] at hu
        exact (by decide : ('<' : Char) ≠ 'u') (Option.some.inj hu)
      have e2 : (if (("</ul><ul>" : String).data.getLast? = some '<' ∧
          ((renderBody (pg2 :: r2)).data).head? = some 'u') then 1 else 0) = 0 := by
        apply if_neg
        rintro ⟨hl, -⟩
        rw [hsepl] at hl
        exact (by decide : ('>' : Char) ≠ '<') (Option.some.inj hl)
      rw [e1, e2]
      simp only [List.length_cons]
      omega

/-- Claim C9 is false as stated for the empty page sequence: the fixed
preamble ends with `<ul>` and the fixed closing starts with `</ul>`, so
rendering zero pages still emits one (empty) page container instead of
zero. -/
theorem C9_counterexample :
    countOpenUl (renderDocument ([] : List (List CardFace))).data ≠
      ([] : List (List CardFace)).length ∧
    countOpenUl (renderDocument ([] : List (List CardFace))).data = 1 := by
  refine ⟨by decide, by decide⟩

/-- Claim C9 (amended to nonempty page sequences): for every nonempty
sequence of pages whose image URLs contain no quote and no `<`
character, the rendered document contains exactly one image element per
face — the `src` attribute values, read off as the odd-position pieces
of the quote-split of the document, are exactly the URLs of the
flattened page sequence in order — and exactly one `<ul>` page-container
opening per page (the containers are siblings produced by joining pages
with `</ul><ul>` inside the fixed preamble and closing). -/
theorem C9_render_images_and_pages (pages : List (List CardFace))
    (hne : pages ≠ [])
    (hq : ∀ f ∈ pages.flatten,
      '\"' ∉ f.image_uris.large.data ∧ '<' ∉ f.image_uris.large.data) :
    oddIdx (splitOnChar '\"' (renderDocument pages).data) =
      (pages.flatten).map (fun f => f.image_uris.large.data) ∧
    countOpenUl (renderDocument pages).data = pages.length := by
  have hdoc : (renderDocument pages).data =
      BEGIN_DOCUMENT_HTML.data ++
        ((renderBody pages).data ++ END_DOCUMENT_HTML.data) := by
    unfold renderDocument
    rw [strdata_append, strdata_append, List.append_assoc]
  constructor
  · rw [hdoc, oddIdx_splitOnChar_append _ (by decide),
      oddIdx_splitQ_body pages _ (fun f hf => (hq f hf).1),
      splitOnChar_no_sep (by decide)]
    simp [oddIdx]
  · rw [hdoc, countOpenUl_append, countOpenUl_append,
      countOpenUl_body pages hne (fun f hf => (hq f hf).2)]
    have hBc : countOpenUl BEGIN_DOCUMENT_HTML.data = 1 := by decide
    have hEc : countOpenUl END_DOCUMENT_HTML.data = 0 := by decide
    have hBl : (BEGIN_DOCUMENT_HTML.data).getLast? = some ('>' : Char) := by decide
    have hEh : (END_DOCUMENT_HTML.data).head? = some ('<' : Char) := by decide
    have e1 : (if ((renderBody pages).data.getLast? = some '<' ∧
        (END_DOCUMENT_HTML.data).head? = some 'u') then 1 else 0) = 0 := by
      apply if_neg
      rintro ⟨-, hu⟩
      rw [hEh] at hu
      exact (by decide : ('<' : Char) ≠ 'u') (Option.some.inj hu)
    have e2 : (if ((BEGIN_DOCUMENT_HTML.data).getLast? = some '<' ∧
        ((renderBody pages).data ++ END_DOCUMENT_HTML.data).head? = some 'u')
        then 1 else 0) = 0 := by
      apply if_neg
      rintro ⟨hl, -⟩
      rw [hBl] at hl
      exact (by decide : ('>' : Char) ≠ '<') (Option.some.inj hl)
    rw [hBc, hEc, e1, e2]
    have hpos : 0 < pages.length := List.length_pos.mpr hne
    omega

/-- Witness for the amended C9: two one-face pages render with the two
image sources in order and two page containers. -/
theorem C9_witness :
    oddIdx (splitOnChar '\"'
        (renderDocument [[mkFace "u1"], [mkFace "u2"]]).data) =
      (([[mkFace "u1"], [mkFace "u2"]] : List (List CardFace)).flatten).map
        (fun f => f.image_uris.large.data) ∧
    countOpenUl (renderDocument [[mkFace "u1"], [mkFace "u2"]]).data =
      ([[mkFace "u1"], [mkFace "u2"]] : List (List CardFace)).length :=
  C9_render_images_and_pages [[mkFace "u1"], [mkFace "u2"]] (by decide)
    (by decide)
